import Mathlib

/-!
# wavepipe: streaming handler, transcode probe, shutdown sequence, song construction

A shallow embedding of four source files of the wavepipe media server:

* `data/song.go`            : `SongFromFile`
* `core/transcodeManager.go`: `ffmpegSetup`
* `api/stream.go`           : `GetStream`
* `main.go`                 : the signal / exit-code sequence of `main`

Go values are embedded as follows.  `int`, `int64` are `Int`.  A Go `error` is a
`GoError`: the identity of the value (what `==` compares) together with the text
`Error()` returns.  A function returning `(T, error)` returns `Except GoError T`.
Calls that leave the repository (the database, the file system, `exec`, the
missing `HTTPStream`) are fields of an environment record, so every theorem
quantifies over all their possible results.
-/

set_option autoImplicit false

namespace Wavepipe

/-! ## Go runtime values -/

/-- A Go `error` value: `ident` names the allocation (the package variable made by
`errors.New`, or any other origin), `msg` is what `Error()` returns.  The Go
comparison `err == X` is equality of these records. -/
structure GoError where
  ident : String
  msg : String
deriving DecidableEq, Repr

/-- Whether the character list `s` begins with `sub`. -/
def startsWith : List Char → List Char → Bool
  | _, [] => true
  | [], _ :: _ => false
  | a :: as, b :: bs => a == b && startsWith as bs

/-- Whether `sub` occurs in `s` at some offset. -/
def containsChars : List Char → List Char → Bool
  | [], sub => startsWith [] sub
  | a :: as, sub => startsWith (a :: as) sub || containsChars as sub

/-- Go `strings.Contains(s, substr)`. -/
def stringsContains (s substr : String) : Bool :=
  containsChars s.data substr.data

namespace data

/-! ## data/song.go -/

/-- The variable `ErrSongTags` (song.go line 25). -/
def ErrSongTags : GoError :=
  ⟨"data.ErrSongTags", "song: required tags could not be extracted from TagLib file"⟩

/-- The variable `ErrSongProperties` (song.go line 27). -/
def ErrSongProperties : GoError :=
  ⟨"data.ErrSongProperties", "song: required properties could not be extracted from TagLib file"⟩

/-- File type `APE` (song.go line 13, `iota` = 0). -/
def APE : Int := 0

/-- File type `FLAC`. -/
def FLAC : Int := 1

/-- File type `M4A`. -/
def M4A : Int := 2

/-- File type `MP3`. -/
def MP3 : Int := 3

/-- File type `MPC`. -/
def MPC : Int := 4

/-- File type `OGG`. -/
def OGG : Int := 5

/-- File type `WMA`. -/
def WMA : Int := 6

/-- File type `WV`. -/
def WV : Int := 7

/-- The map `CodecMap` (song.go lines 43-52); a missing key of a Go map yields `""`. -/
def CodecMap (k : Int) : String :=
  if k = APE then "APE"
  else if k = FLAC then "FLAC"
  else if k = M4A then "M4A"
  else if k = MP3 then "MP3"
  else if k = MPC then "MPC"
  else if k = OGG then "OGG"
  else if k = WMA then "WMA"
  else if k = WV then "WV"
  else ""

/-- The struct `Song` (song.go lines 69-90). -/
structure Song where
  ID : Int
  Album : String
  AlbumID : Int
  ArtID : Int
  Artist : String
  ArtistID : Int
  Bitrate : Int
  Channels : Int
  Comment : String
  FileName : String
  FileSize : Int
  FileTypeID : Int
  FolderID : Int
  Genre : String
  LastModified : Int
  Length : Int
  SampleRate : Int
  Title : String
  Track : Int
  Year : Int
deriving DecidableEq, Repr

/-- The Go zero value of `Song`. -/
def Song.zero : Song :=
  { ID := 0, Album := "", AlbumID := 0, ArtID := 0, Artist := "", ArtistID := 0,
    Bitrate := 0, Channels := 0, Comment := "", FileName := "", FileSize := 0,
    FileTypeID := 0, FolderID := 0, Genre := "", LastModified := 0, Length := 0,
    SampleRate := 0, Title := "", Track := 0, Year := 0 }

/-- What a `*taglib.File` answers to the accessors `SongFromFile` calls.  The
go-taglib binding reads every value from the C library; the audio length is
reported by the library in whole seconds (`lengthSeconds`) and the binding turns
it into a `time.Duration`. -/
structure TagLibFile where
  title : String
  artist : String
  album : String
  comment : String
  genre : String
  year : Int
  track : Int
  bitrate : Int
  samplerate : Int
  channels : Int
  lengthSeconds : Int
deriving DecidableEq, Repr

/-- The constant `time.Second`, in nanoseconds. -/
def timeSecond : Int := 1000000000

/-- The call `file.Length()`: the library's seconds as a `time.Duration` (nanoseconds). -/
def TagLibFile.Length (f : TagLibFile) : Int := f.lengthSeconds * timeSecond

/-- The conversion `int(d.Seconds())` for a duration `d`: the number of whole seconds, rounded
toward zero. -/
def durationSecondsInt (d : Int) : Int := Int.tdiv d timeSecond

/-- The function `SongFromFile` (song.go lines 94-129). -/
def SongFromFile (file : TagLibFile) : Except GoError Song :=
  let title := file.title
  let artist := file.artist
  if title = "" ∨ artist = "" then
    Except.error ErrSongTags
  else
    let bitrate := file.bitrate
    let channels := file.channels
    let length := durationSecondsInt file.Length
    let sampleRate := file.samplerate
    if bitrate = 0 ∨ channels = 0 ∨ length = 0 ∨ sampleRate = 0 then
      Except.error ErrSongProperties
    else
      Except.ok
        { Song.zero with
          Album := file.album
          Artist := artist
          Bitrate := bitrate
          Channels := channels
          Comment := file.comment
          Genre := file.genre
          Length := length
          SampleRate := sampleRate
          Title := title
          Track := file.track
          Year := file.year }

end data

namespace transcode

/-! ## The package-level state of `transcode` written by `ffmpegSetup` -/

/-- The three codec names `transcode.FFmpegMP3Codec`, `transcode.FFmpegOGGCodec`,
`transcode.FFmpegOPUSCodec`; their declarations are outside the four files, so
they are parameters. -/
structure Codecs where
  FFmpegMP3Codec : String
  FFmpegOGGCodec : String
  FFmpegOPUSCodec : String
deriving DecidableEq, Repr

/-- The call `CodecSet.Add(c)`: `CodecSet` is a set of strings, kept here as a list
without repetitions; adding a present element changes nothing. -/
def setAdd (s : List String) (c : String) : List String :=
  if c ∈ s then s else s ++ [c]

/-- The variables `transcode.Enabled`, `transcode.FFmpegPath`,
`transcode.CodecSet`. -/
structure State where
  Enabled : Bool
  FFmpegPath : String
  CodecSet : List String
deriving DecidableEq, Repr

end transcode

namespace core

/-! ## core/transcodeManager.go -/

/-- The execution environment `ffmpegSetup` reads: the result of
`exec.LookPath("ffmpeg")` and, for a path, the result of
`exec.Command(path, "-loglevel", "quiet", "-codecs").Output()`. -/
structure ProbeEnv where
  codecs : transcode.Codecs
  LookPath : String → Except GoError String
  CommandOutput : String → List String → Except GoError String

/-- The loop body of `ffmpegSetup` (transcodeManager.go lines 60-65) for one
codec `c`: state and log after the iteration. -/
def checkCodec (codecStr : String) (st : transcode.State × List String) (c : String) :
    transcode.State × List String :=
  if stringsContains codecStr c then
    ({ st.1 with CodecSet := transcode.setAdd st.1.CodecSet c },
      st.2 ++ ["transcode: " ++ c ++ " found, enabling transcoding"])
  else
    (st.1, st.2 ++ ["transcode: " ++ c ++ " not found, disabling transcoding"])

/-- The function `ffmpegSetup` (transcodeManager.go lines 33-67): the `transcode` variables
after the call, and the lines it logged. -/
def ffmpegSetupLog (env : ProbeEnv) (s : transcode.State) : transcode.State × List String :=
  let s1 := { s with Enabled := false }
  match env.LookPath "ffmpeg" with
  | Except.error _ =>
    (s1, ["transcode: cannot find ffmpeg, transcoding will be disabled"])
  | Except.ok path =>
    let log1 := ["transcode: found ffmpeg: " ++ path]
    let s2 := { s1 with Enabled := true }
    let s3 := { s2 with FFmpegPath := path }
    match env.CommandOutput path ["-loglevel", "quiet", "-codecs"] with
    | Except.error _ =>
      (s3, log1 ++ ["transcode: could not detect ffmpeg codecs, transcoding will be disabled"])
    | Except.ok codecStr =>
      List.foldl (checkCodec codecStr) (s3, log1)
        [env.codecs.FFmpegMP3Codec, env.codecs.FFmpegOGGCodec, env.codecs.FFmpegOPUSCodec]

/-- The `transcode` variables after `ffmpegSetup`. -/
def ffmpegSetup (env : ProbeEnv) (s : transcode.State) : transcode.State :=
  (ffmpegSetupLog env s).1

end core

namespace api

/-! ## api/stream.go -/

/-- The variable `sql.ErrNoRows` of the standard library. -/
def sqlErrNoRows : GoError := ⟨"sql.ErrNoRows", "sql: no rows in result set"⟩

/-- The value of a run of decimal digits, most significant first. -/
def digitsValue (ds : List Char) : Nat :=
  ds.foldl (fun n ch => n * 10 + (ch.toNat - '0'.toNat)) 0

/-- The unsigned part of `strconv.Atoi`: at least one character, all of them
ASCII digits. -/
def parseDigits (ds : List Char) : Option Nat :=
  if ds ≠ [] ∧ ds.all Char.isDigit then some (digitsValue ds) else none

/-- Go `strconv.Atoi` on a 64-bit platform: an optional sign, then decimal digits;
`none` for a syntax error or a value outside `int`. -/
def Atoi (s : String) : Option Int :=
  let signed : Bool × List Char :=
    match s.data with
    | '-' :: rest => (true, rest)
    | '+' :: rest => (false, rest)
    | cs => (false, cs)
  match parseDigits signed.2 with
  | none => none
  | some n =>
    let v : Int := if signed.1 then -(n : Int) else (n : Int)
    if -9223372036854775808 ≤ v ∧ v ≤ 9223372036854775807 then some v else none

/-- The request as `GetStream` reads it: the route variables `mux.Vars(r)` and the
request headers (read only by `HTTPStream`).  A request reaches the handler through
the router, which stores the `*render.Render` under `CtxRender` first; `ren` of
line 22 is that renderer and `Action.json` is a call of its `JSON` method. -/
structure Request where
  vars : List (String × String)
  header : List (String × String)
deriving DecidableEq, Repr

/-- The second argument of `ren.JSON`: a call `errRes(code, msg)` or the
package variable `serverErr`, both declared outside the four files and kept
symbolic. -/
inductive Body where
  | errRes (code : Int) (msg : String)
  | serverErr
deriving DecidableEq, Repr

/-- What `GetStream` does to the outside, in program order. -/
inductive Action where
  | setHeader (key value : String)
  | json (status : Int) (body : Body)
  | log (line : String)
  | httpStream (song : data.Song) (mimeType : String) (contentLength : Int) (stream : Nat)
deriving DecidableEq, Repr

/-- What `GetStream` obtains from the rest of the program: the set
`apiVersionSet`, the variable `ErrInvalidRange`, `DB.LoadSong` behind
`song.Load()`, `os.Open` behind `song.Stream()` (the stream is named by a
number), and the result of `HTTPStream` (`none` is a nil error). -/
structure Env where
  apiVersionSet : List String
  ErrInvalidRange : GoError
  LoadSong : data.Song → Except GoError data.Song
  Open : String → Except GoError Nat
  HTTPStream : data.Song → String → Int → Nat → Request → Option GoError

/-- Go `%05d`: sign first, then zeros up to a total width of five. -/
def fmt05d (n : Int) : String :=
  let digits := toString n.natAbs
  let sign := if n < 0 then "-" else ""
  sign ++ String.mk (List.replicate (5 - sign.length - digits.length) '0') ++ digits

/-- The logging label of stream.go lines 74-75. -/
def opStr (song : data.Song) : String :=
  "[#" ++ fmt05d song.ID ++ "] " ++ song.Artist ++ " - " ++ song.Title ++ " [" ++
    data.CodecMap song.FileTypeID ++ " " ++ toString song.Bitrate ++ "kbps]"

/-- The test of stream.go line 83 on the text of an error. -/
def isClientReset (err : GoError) : Bool :=
  stringsContains err.msg "connection reset by peer" || stringsContains err.msg "broken pipe"

/-- Lines 73-98 of `GetStream`: the song is loaded and its stream is open. -/
def serveStream (env : Env) (r : Request) (song : data.Song) (stream : Nat) : List Action :=
  [Action.log ("stream: starting: " ++ opStr song),
   Action.httpStream song "" song.FileSize stream] ++
  (match env.HTTPStream song "" song.FileSize stream r with
   | some err =>
     if isClientReset err then
       []
     else if err = env.ErrInvalidRange then
       [Action.json 416 (Body.errRes 416 "invalid HTTP Range header boundaries")]
     else
       [Action.log ("stream: error: " ++ err.msg)]
   | none => [Action.log ("stream: completed: " ++ opStr song)])

/-- Lines 50-71 of `GetStream`: load the song with the parsed id and open it. -/
def loadSong (env : Env) (r : Request) (id : Int) : List Action :=
  match env.LoadSong { data.Song.zero with ID := id } with
  | Except.error err =>
    if err = sqlErrNoRows then
      [Action.json 404 (Body.errRes 404 "song ID not found")]
    else
      [Action.log err.msg, Action.json 500 Body.serverErr]
  | Except.ok song =>
    match env.Open song.FileName with
    | Except.error err => [Action.log err.msg, Action.json 500 Body.serverErr]
    | Except.ok stream => serveStream env r song stream

/-- Lines 36-48 of `GetStream`: the `id` route variable. -/
def checkID (env : Env) (r : Request) : List Action :=
  match r.vars.lookup "id" with
  | none => [Action.json 400 (Body.errRes 400 "no integer stream ID provided")]
  | some pID =>
    match Atoi pID with
    | none => [Action.json 400 (Body.errRes 400 "invalid integer stream ID")]
    | some id => loadSong env r id

/-- The handler `GetStream` (stream.go lines 20-99). -/
def GetStream (env : Env) (r : Request) : List Action :=
  Action.setHeader "Accept-Ranges" "bytes" ::
    (match r.vars.lookup "version" with
     | some version =>
       if env.apiVersionSet.contains version then checkID env r
       else [Action.json 400 (Body.errRes 400 ("unsupported API version: " ++ version))]
     | none => checkID env r)

/-- The status and body `GetStream` passed to `ren.JSON`, if it called it. -/
def jsonResponse : List Action → Option (Int × Body)
  | [] => none
  | Action.json status body :: _ => some (status, body)
  | _ :: rest => jsonResponse rest

/-- Whether `HTTPStream` was invoked. -/
def invokedHTTPStream : List Action → Bool
  | [] => false
  | Action.httpStream _ _ _ _ :: _ => true
  | _ :: rest => invokedHTTPStream rest

/-- The lines logged, in order. -/
def logLines : List Action → List String
  | [] => []
  | Action.log line :: rest => line :: logLines rest
  | _ :: rest => logLines rest

/-- The header writes `GetStream` makes itself through `w.Header().Set`, as an
association list with the latest value of a key first; what `ren.JSON` and
`HTTPStream` add to the map of `w` (such as `Content-Type`) is not part of it. -/
def responseHeader : List Action → List (String × String)
  | [] => []
  | Action.setHeader k v :: rest => responseHeader rest ++ [(k, v)]
  | _ :: rest => responseHeader rest

/-- Whether an action writes a response header. -/
def Action.isSetHeader : Action → Bool
  | Action.setHeader _ _ => true
  | _ => false

/-- The test of stream.go lines 28-34: no version in the route, or a supported one. -/
def versionSupported (env : Env) (r : Request) : Bool :=
  match r.vars.lookup "version" with
  | some version => env.apiVersionSet.contains version
  | none => true

/-- The request passes every check of stream.go lines 28-71 and `GetStream`
calls `HTTPStream` on `song` and `stream`. -/
def Reaches (env : Env) (r : Request) (song : data.Song) (stream : Nat) : Prop :=
  versionSupported env r = true ∧
  ∃ pID id, r.vars.lookup "id" = some pID ∧ Atoi pID = some id ∧
    env.LoadSong { data.Song.zero with ID := id } = Except.ok song ∧
    env.Open song.FileName = Except.ok stream

/-- The pre-stream decision table, written from the claim: the status of the
error response, or `none` when the request reaches `HTTPStream`. -/
def preStreamStatus (env : Env) (r : Request) : Option Int :=
  match r.vars.lookup "version" with
  | some version =>
    if env.apiVersionSet.contains version then preStreamAfterVersion else some 400
  | none => preStreamAfterVersion
where
  /-- The rows after the version row. -/
  preStreamAfterVersion : Option Int :=
    match r.vars.lookup "id" with
    | none => some 400
    | some pID =>
      match Atoi pID with
      | none => some 400
      | some id =>
        match env.LoadSong { data.Song.zero with ID := id } with
        | Except.error err => if err = sqlErrNoRows then some 404 else some 500
        | Except.ok song =>
          match env.Open song.FileName with
          | Except.error _ => some 500
          | Except.ok _ => none

end api

namespace cmd

/-! ## main.go -/

/-- The signals `main` subscribes to. -/
inductive Signal where
  | interrupt
  | sigterm
deriving DecidableEq, Repr

/-- The statement the main goroutine executes next: the receive from `sigChan`
(line 49), the log of the caught signal (line 50), the send on `killChan`
(line 51), the `go` statement that starts the force-halt goroutine (lines 52-56),
the receive from `exitChan` (line 64), the log of the graceful shutdown (line 65),
the call `os.Exit(code)` (line 66). -/
inductive PC where
  | awaitSignal
  | logCaught (sig : Signal)
  | sendKill
  | spawnForce
  | awaitExit
  | logGraceful (code : Int)
  | callExit (code : Int)
deriving DecidableEq, Repr

/-- The statement the force-halt goroutine of lines 56-61 executes next: none
before the `go` statement ran, the receive from `sigChan` (line 57), the log
(line 58), the call `os.Exit(1)` (line 59). -/
inductive ForcePC where
  | notStarted
  | awaitSignal
  | logForce (sig : Signal)
  | callExit
deriving DecidableEq, Repr

/-- The statement the test-mode goroutine of lines 35-43 executes next: none
without the test flag, the log (line 38), the send of `os.Interrupt` after the
delay (lines 39-42), none once it returned. -/
inductive TestPC where
  | off
  | logTest
  | sendInterrupt
  | done
deriving DecidableEq, Repr

/-- The lines `main` logs. -/
inductive LogLine where
  | starting
  | testMode
  | caughtSignal (sig : Signal)
  | forceHalting (sig : Signal)
  | gracefulComplete
deriving DecidableEq, Repr

/-- The process state: the three goroutines, the one-slot buffer of `sigChan`,
the argument of the `os.Exit` call that ended the process if one ran, and the
log. -/
structure Proc where
  pc : PC
  force : ForcePC
  test : TestPC
  sigChan : Option Signal
  exited : Option Int
  log : List LogLine
deriving DecidableEq, Repr

/-- What the scheduler can pick next: the runtime delivers a signal to `sigChan`
(dropped when the buffer is full), the test-mode goroutine, the main goroutine or
the force-halt goroutine executes its next statement, the manager receives the
stop request from `killChan`, the manager sends an exit code on `exitChan`. -/
inductive Event where
  | notify (sig : Signal)
  | testStep
  | mainStep
  | forceStep
  | managerRecvKill
  | managerSendExit (code : Int)
deriving DecidableEq, Repr

/-- The state after lines 18-48 of `main`: the main goroutine reaches the loop of
line 49, the test-mode goroutine exists when the flag is set. -/
def start (testFlag : Bool) : Proc :=
  { pc := PC.awaitSignal, force := ForcePC.notStarted,
    test := if testFlag then TestPC.logTest else TestPC.off,
    sigChan := none, exited := none, log := [LogLine.starting] }

/-- One statement of one goroutine, or one delivery; `none` when the event cannot
happen in the state (the goroutine is blocked, or the process has exited). -/
def step (s : Proc) (e : Event) : Option Proc :=
  if s.exited.isSome then none
  else
    match e with
    | Event.notify sig =>
      match s.sigChan with
      | none => some { s with sigChan := some sig }
      | some _ => some s
    | Event.testStep =>
      match s.test, s.sigChan with
      | TestPC.logTest, _ =>
        some { s with test := TestPC.sendInterrupt, log := s.log ++ [LogLine.testMode] }
      | TestPC.sendInterrupt, none =>
        some { s with test := TestPC.done, sigChan := some Signal.interrupt }
      | _, _ => none
    | Event.mainStep =>
      match s.pc, s.sigChan with
      | PC.awaitSignal, some sig => some { s with pc := PC.logCaught sig, sigChan := none }
      | PC.logCaught sig, _ =>
        some { s with pc := PC.sendKill, log := s.log ++ [LogLine.caughtSignal sig] }
      | PC.spawnForce, _ => some { s with pc := PC.awaitExit, force := ForcePC.awaitSignal }
      | PC.logGraceful code, _ =>
        some { s with pc := PC.callExit code, log := s.log ++ [LogLine.gracefulComplete] }
      | PC.callExit code, _ => some { s with exited := some code }
      | _, _ => none
    | Event.forceStep =>
      match s.force, s.sigChan with
      | ForcePC.awaitSignal, some sig =>
        some { s with force := ForcePC.logForce sig, sigChan := none }
      | ForcePC.logForce sig, _ =>
        some { s with force := ForcePC.callExit, log := s.log ++ [LogLine.forceHalting sig] }
      | ForcePC.callExit, _ => some { s with exited := some 1 }
      | _, _ => none
    | Event.managerRecvKill =>
      match s.pc with
      | PC.sendKill => some { s with pc := PC.spawnForce }
      | _ => none
    | Event.managerSendExit code =>
      match s.pc with
      | PC.awaitExit => some { s with pc := PC.logGraceful code }
      | _ => none

/-- Run a schedule; `none` when one of its events cannot happen. -/
def run (s : Proc) : List Event → Option Proc
  | [] => some s
  | e :: es =>
    match step s e with
    | none => none
    | some s' => run s' es

/-- What holds of every state a schedule reaches: the force-halt goroutine is
started only after the manager took the stop request; it reaches `os.Exit(1)` only after
its log line; the main goroutine holds only an exit code the manager sent and
reaches `os.Exit(code)` only after its log line; an exit is one of these two
calls. -/
def shutdownInv (evs : List Event) (s : Proc) : Prop :=
  (s.pc = PC.spawnForce ∨ s.force ≠ ForcePC.notStarted → Event.managerRecvKill ∈ evs) ∧
  (s.force = ForcePC.callExit → ∃ sig, LogLine.forceHalting sig ∈ s.log) ∧
  (∀ c, s.pc = PC.logGraceful c ∨ s.pc = PC.callExit c → Event.managerSendExit c ∈ evs) ∧
  (∀ c, s.pc = PC.callExit c → LogLine.gracefulComplete ∈ s.log) ∧
  (∀ k, s.exited = some k → (k = 1 ∧ s.force = ForcePC.callExit) ∨ s.pc = PC.callExit k)

end cmd

namespace sample

/-! ## Concrete inputs -/

/-- A tagged file with every required tag and property. -/
def goodFile : data.TagLibFile :=
  { title := "Song", artist := "Band", album := "LP", comment := "", genre := "Rock",
    year := 2014, track := 3, bitrate := 320, samplerate := 44100, channels := 2,
    lengthSeconds := 187 }

/-- Codec names for the probe. -/
def codecNames : transcode.Codecs :=
  { FFmpegMP3Codec := "libmp3lame", FFmpegOGGCodec := "libvorbis", FFmpegOPUSCodec := "libopus" }

/-- The `transcode` variables before the probe ran. -/
def freshState : transcode.State := { Enabled := false, FFmpegPath := "", CodecSet := [] }

/-- An environment without ffmpeg on the search path. -/
def envAbsent : core.ProbeEnv :=
  { codecs := codecNames
    LookPath := fun _ => Except.error ⟨"exec.ErrNotFound", "executable file not found in $PATH"⟩
    CommandOutput := fun _ _ => Except.error ⟨"exec", "no such file"⟩ }

/-- An environment where ffmpeg is found but the codec listing fails. -/
def envUnusable : core.ProbeEnv :=
  { codecs := codecNames
    LookPath := fun _ => Except.ok "/usr/bin/ffmpeg"
    CommandOutput := fun _ _ => Except.error ⟨"exec.ExitError", "exit status 1"⟩ }

/-- An environment where ffmpeg lists two of the three codecs. -/
def envTwoCodecs : core.ProbeEnv :=
  { codecs := codecNames
    LookPath := fun _ => Except.ok "/usr/bin/ffmpeg"
    CommandOutput := fun _ _ => Except.ok " DEA.L. mp3 (encoders: libmp3lame ) DEA.L. opus (encoders: libopus )" }

/-- A stored song. -/
def song42 : data.Song :=
  { data.Song.zero with
    ID := 42, Artist := "Band", Title := "Song", Bitrate := 320,
    FileName := "/music/a.mp3", FileSize := 1000, FileTypeID := 3 }

/-- The value of the variable `ErrInvalidRange`. -/
def errInvalidRange : GoError := ⟨"api.ErrInvalidRange", "invalid range"⟩

/-- A storage failure while reading the song. -/
def ioError : GoError := ⟨"syscall.EIO", "read /music/a.mp3: input/output error"⟩

/-- A write to a connection the client closed. -/
def resetError : GoError := ⟨"net.OpError", "write tcp 10.0.0.2:8080: broken pipe"⟩

/-- A server holding song 42, whose `HTTPStream` returns `result`. -/
def apiEnv (result : Option GoError) : api.Env :=
  { apiVersionSet := ["v0"]
    ErrInvalidRange := errInvalidRange
    LoadSong := fun s => if s.ID = 42 then Except.ok song42 else Except.error api.sqlErrNoRows
    Open := fun name =>
      if name = "/music/a.mp3" then Except.ok 3
      else Except.error ⟨"os.PathError", "open: no such file or directory"⟩
    HTTPStream := fun _ _ _ _ _ => result }

/-- A request for song 42 with a range past its end. -/
def request42 : api.Request :=
  { vars := [("version", "v0"), ("id", "42")], header := [("Range", "bytes=1000-1100")] }

/-- A request naming an API version the server does not have. -/
def requestBadVersion : api.Request :=
  { vars := [("version", "v9"), ("id", "42")], header := [] }

/-- A schedule up to the point where the force-halt goroutine has received and
logged a second signal while `main` still waits on `exitChan`. -/
def secondSignalLogged : List cmd.Event :=
  [cmd.Event.notify cmd.Signal.interrupt, cmd.Event.mainStep, cmd.Event.mainStep,
   cmd.Event.managerRecvKill, cmd.Event.mainStep, cmd.Event.notify cmd.Signal.sigterm,
   cmd.Event.forceStep, cmd.Event.forceStep]

/-- The state after `secondSignalLogged`. -/
def secondSignalLoggedState : cmd.Proc :=
  { pc := cmd.PC.awaitExit, force := cmd.ForcePC.callExit, test := cmd.TestPC.off,
    sigChan := none, exited := none,
    log := [cmd.LogLine.starting, cmd.LogLine.caughtSignal cmd.Signal.interrupt,
            cmd.LogLine.forceHalting cmd.Signal.sigterm] }

/-- The manager sends exit code 0 and `main` runs lines 64-66 before the
force-halt goroutine runs line 59. -/
def gracefulFirst : List cmd.Event :=
  [cmd.Event.managerSendExit 0, cmd.Event.mainStep, cmd.Event.mainStep]

/-- The state after `secondSignalLogged` followed by `gracefulFirst`. -/
def gracefulFirstState : cmd.Proc :=
  { pc := cmd.PC.callExit 0, force := cmd.ForcePC.callExit, test := cmd.TestPC.off,
    sigChan := none, exited := some 0,
    log := [cmd.LogLine.starting, cmd.LogLine.caughtSignal cmd.Signal.interrupt,
            cmd.LogLine.forceHalting cmd.Signal.sigterm, cmd.LogLine.gracefulComplete] }

/-- The force-halt goroutine runs line 59 first. -/
def forcedState : cmd.Proc :=
  { pc := cmd.PC.awaitExit, force := cmd.ForcePC.callExit, test := cmd.TestPC.off,
    sigChan := none, exited := some 1,
    log := [cmd.LogLine.starting, cmd.LogLine.caughtSignal cmd.Signal.interrupt,
            cmd.LogLine.forceHalting cmd.Signal.sigterm] }

/-- The state in which the stop request is forwarded, the force-halt goroutine
waits on `sigChan` and a second signal sits in the buffer. -/
def secondSignalPending : cmd.Proc :=
  { pc := cmd.PC.awaitExit, force := cmd.ForcePC.awaitSignal, test := cmd.TestPC.off,
    sigChan := some cmd.Signal.sigterm, exited := none,
    log := [cmd.LogLine.starting, cmd.LogLine.caughtSignal cmd.Signal.interrupt] }

end sample

/-! ## Lemmas on the set of codecs -/

theorem setAdd_of_mem (s : List String) (c : String) (h : c ∈ s) :
    transcode.setAdd s c = s := by
  simp [transcode.setAdd, h]

theorem mem_setAdd (s : List String) (c d : String) :
    d ∈ transcode.setAdd s c ↔ d ∈ s ∨ d = c := by
  unfold transcode.setAdd
  split
  · constructor
    · intro h; exact Or.inl h
    · rintro (h | h)
      · exact h
      · subst h; assumption
  · simp

theorem checkCodec_state (O : String) (st : transcode.State × List String) (c : String) :
    (core.checkCodec O st c).1 =
      if stringsContains O c then { st.1 with CodecSet := transcode.setAdd st.1.CodecSet c }
      else st.1 := by
  unfold core.checkCodec
  split <;> rfl

/-- The `transcode` variables after a probe that found ffmpeg at `path` and read
the codec listing `O`. -/
theorem ffmpegSetup_found (env : core.ProbeEnv) (s : transcode.State) (path O : String)
    (hp : env.LookPath "ffmpeg" = Except.ok path)
    (ho : env.CommandOutput path ["-loglevel", "quiet", "-codecs"] = Except.ok O) :
    core.ffmpegSetup env s =
      (core.checkCodec O (core.checkCodec O (core.checkCodec O
        ({ Enabled := true, FFmpegPath := path, CodecSet := s.CodecSet },
          ["transcode: found ffmpeg: " ++ path])
        env.codecs.FFmpegMP3Codec) env.codecs.FFmpegOGGCodec) env.codecs.FFmpegOPUSCodec).1 := by
  simp [core.ffmpegSetup, core.ffmpegSetupLog, hp, ho]

theorem checkCodec_enabled (O : String) (st : transcode.State × List String) (c : String) :
    (core.checkCodec O st c).1.Enabled = st.1.Enabled ∧
    (core.checkCodec O st c).1.FFmpegPath = st.1.FFmpegPath := by
  rw [checkCodec_state]
  split <;> simp

theorem mem_checkCodec (O : String) (st : transcode.State × List String) (c d : String) :
    d ∈ (core.checkCodec O st c).1.CodecSet ↔
      d ∈ st.1.CodecSet ∨ (d = c ∧ stringsContains O c = true) := by
  rw [checkCodec_state]
  split
  · rename_i h
    simp [mem_setAdd, h]
  · rename_i h
    simp [h]

theorem checkCodec_fixed (O : String) (st : transcode.State × List String) (c : String)
    (h : stringsContains O c = true → c ∈ st.1.CodecSet) :
    (core.checkCodec O st c).1 = st.1 := by
  rw [checkCodec_state]
  split
  · rename_i hc
    rw [setAdd_of_mem _ _ (h hc)]
  · rfl

/-- After the loop over three codecs, `Enabled` and `FFmpegPath` are as before. -/
theorem probe_loop_enabled (O c1 c2 c3 : String) (s0 : transcode.State) (l : List String) :
    (core.checkCodec O (core.checkCodec O (core.checkCodec O (s0, l) c1) c2) c3).1.Enabled
      = s0.Enabled ∧
    (core.checkCodec O (core.checkCodec O (core.checkCodec O (s0, l) c1) c2) c3).1.FFmpegPath
      = s0.FFmpegPath := by
  simp [checkCodec_enabled]

/-- Running the loop over three codecs on its own result changes nothing. -/
theorem probe_loop_idempotent (O c1 c2 c3 : String) (s0 : transcode.State)
    (l l' : List String) :
    (core.checkCodec O (core.checkCodec O (core.checkCodec O
      ((core.checkCodec O (core.checkCodec O (core.checkCodec O (s0, l) c1) c2) c3).1, l')
        c1) c2) c3).1 =
    (core.checkCodec O (core.checkCodec O (core.checkCodec O (s0, l) c1) c2) c3).1 := by
  generalize hr : core.checkCodec O (core.checkCodec O (core.checkCodec O (s0, l) c1) c2) c3
    = r
  have hm1 : stringsContains O c1 = true → c1 ∈ r.1.CodecSet := by
    intro h
    rw [← hr]
    simp [mem_checkCodec, h]
  have hm2 : stringsContains O c2 = true → c2 ∈ r.1.CodecSet := by
    intro h
    rw [← hr]
    simp [mem_checkCodec, h]
  have hm3 : stringsContains O c3 = true → c3 ∈ r.1.CodecSet := by
    intro h
    rw [← hr]
    simp [mem_checkCodec, h]
  have e1 : (core.checkCodec O (r.1, l') c1).1 = r.1 := checkCodec_fixed O (r.1, l') c1 hm1
  generalize core.checkCodec O (r.1, l') c1 = q1 at e1
  have e2 : (core.checkCodec O q1 c2).1 = r.1 := by
    rw [← e1]
    exact checkCodec_fixed O q1 c2 (by rw [e1]; exact hm2)
  generalize core.checkCodec O q1 c2 = q2 at e2
  rw [← e2]
  exact checkCodec_fixed O q2 c3 (by rw [e2]; exact hm3)

/-! ## Theorems on `SongFromFile` -/

theorem durationSecondsInt_Length (f : data.TagLibFile) :
    data.durationSecondsInt f.Length = f.lengthSeconds := by
  unfold data.durationSecondsInt data.TagLibFile.Length data.timeSecond
  exact Int.mul_tdiv_cancel _ (by decide)

/-- C10: `SongFromFile` returns `ErrSongTags` exactly when the title or the artist
is empty; otherwise it returns `ErrSongProperties` exactly when bitrate, channels,
length in whole seconds or sample rate is zero; otherwise it succeeds with a song
whose eleven tag and property fields are the file's values and whose other fields
are zero. -/
theorem SongFromFile_spec (f : data.TagLibFile) :
    (data.SongFromFile f = Except.error data.ErrSongTags ↔ (f.title = "" ∨ f.artist = "")) ∧
    (¬ (f.title = "" ∨ f.artist = "") →
      (data.SongFromFile f = Except.error data.ErrSongProperties ↔
        (f.bitrate = 0 ∨ f.channels = 0 ∨ f.lengthSeconds = 0 ∨ f.samplerate = 0))) ∧
    (¬ (f.title = "" ∨ f.artist = "") →
      ¬ (f.bitrate = 0 ∨ f.channels = 0 ∨ f.lengthSeconds = 0 ∨ f.samplerate = 0) →
      data.SongFromFile f = Except.ok
        { ID := 0, Album := f.album, AlbumID := 0, ArtID := 0, Artist := f.artist,
          ArtistID := 0, Bitrate := f.bitrate, Channels := f.channels, Comment := f.comment,
          FileName := "", FileSize := 0, FileTypeID := 0, FolderID := 0, Genre := f.genre,
          LastModified := 0, Length := f.lengthSeconds, SampleRate := f.samplerate,
          Title := f.title, Track := f.track, Year := f.year }) := by
  have hne : data.ErrSongProperties ≠ data.ErrSongTags := by decide
  refine ⟨?_, ?_, ?_⟩
  · unfold data.SongFromFile
    simp only [durationSecondsInt_Length]
    by_cases ht : f.title = "" ∨ f.artist = ""
    · simp [ht]
    · by_cases hp : f.bitrate = 0 ∨ f.channels = 0 ∨ f.lengthSeconds = 0 ∨ f.samplerate = 0
      · simp [ht, hp, hne]
      · simp [ht, hp]
  · intro ht
    unfold data.SongFromFile
    simp only [durationSecondsInt_Length]
    by_cases hp : f.bitrate = 0 ∨ f.channels = 0 ∨ f.lengthSeconds = 0 ∨ f.samplerate = 0
    · simp [ht, hp]
    · simp [ht, hp]
  · intro ht hp
    unfold data.SongFromFile
    simp only [durationSecondsInt_Length]
    simp [ht, hp, data.Song.zero]

/-- C10 at a concrete file: a fully tagged file yields its song. -/
theorem SongFromFile_spec_witness :
    data.SongFromFile sample.goodFile = Except.ok
      { ID := 0, Album := "LP", AlbumID := 0, ArtID := 0, Artist := "Band",
        ArtistID := 0, Bitrate := 320, Channels := 2, Comment := "",
        FileName := "", FileSize := 0, FileTypeID := 0, FolderID := 0, Genre := "Rock",
        LastModified := 0, Length := 187, SampleRate := 44100,
        Title := "Song", Track := 3, Year := 2014 } :=
  (SongFromFile_spec sample.goodFile).2.2 (by decide) (by decide)

/-! ## Theorems on `ffmpegSetup` -/

/-- C2: with ffmpeg found and the codec listing failing, `ffmpegSetup` leaves
`transcode.Enabled` true (and the located path stored), although it logs that
transcoding will be disabled. -/
theorem ffmpegSetup_unusable_enabled :
    core.ffmpegSetupLog sample.envUnusable sample.freshState =
      ({ Enabled := true, FFmpegPath := "/usr/bin/ffmpeg", CodecSet := [] },
       ["transcode: found ffmpeg: /usr/bin/ffmpeg",
        "transcode: could not detect ffmpeg codecs, transcoding will be disabled"]) := by
  decide

/-- C6: from an empty codec set, a probe that finds ffmpeg and reads the listing
`O` enables transcoding and leaves in `CodecSet` exactly the registry codecs that
occur in `O`; a probe that does not find ffmpeg leaves transcoding disabled and
the set empty. -/
theorem ffmpegSetup_codecSet (env : core.ProbeEnv) (s : transcode.State)
    (hs : s.CodecSet = []) :
    (∀ path O, env.LookPath "ffmpeg" = Except.ok path →
      env.CommandOutput path ["-loglevel", "quiet", "-codecs"] = Except.ok O →
      (core.ffmpegSetup env s).Enabled = true ∧
      ∀ c, c ∈ (core.ffmpegSetup env s).CodecSet ↔
        (c ∈ [env.codecs.FFmpegMP3Codec, env.codecs.FFmpegOGGCodec,
              env.codecs.FFmpegOPUSCodec] ∧ stringsContains O c = true)) ∧
    (∀ e, env.LookPath "ffmpeg" = Except.error e →
      (core.ffmpegSetup env s).Enabled = false ∧ (core.ffmpegSetup env s).CodecSet = []) := by
  constructor
  · intro path O hp ho
    rw [ffmpegSetup_found env s path O hp ho]
    constructor
    · simp [checkCodec_enabled]
    · intro c
      simp only [mem_checkCodec, hs, List.mem_cons, List.mem_singleton, List.not_mem_nil,
        false_or, or_false]
      constructor
      · rintro ((⟨h, hc⟩ | ⟨h, hc⟩) | ⟨h, hc⟩)
        · subst h; exact ⟨Or.inl rfl, hc⟩
        · subst h; exact ⟨Or.inr (Or.inl rfl), hc⟩
        · subst h; exact ⟨Or.inr (Or.inr rfl), hc⟩
      · rintro ⟨h | h | h, hc⟩
        · subst h; exact Or.inl (Or.inl ⟨rfl, hc⟩)
        · subst h; exact Or.inl (Or.inr ⟨rfl, hc⟩)
        · subst h; exact Or.inr ⟨rfl, hc⟩
  · intro e he
    simp [core.ffmpegSetup, core.ffmpegSetupLog, he, hs]

/-- C6 at a concrete environment: a listing naming two of the three codecs. -/
theorem ffmpegSetup_codecSet_witness :
    (core.ffmpegSetup sample.envTwoCodecs sample.freshState).Enabled = true ∧
    ∀ c, c ∈ (core.ffmpegSetup sample.envTwoCodecs sample.freshState).CodecSet ↔
      (c ∈ ["libmp3lame", "libvorbis", "libopus"] ∧
        stringsContains " DEA.L. mp3 (encoders: libmp3lame ) DEA.L. opus (encoders: libopus )" c
          = true) :=
  (ffmpegSetup_codecSet sample.envTwoCodecs sample.freshState rfl).1
    "/usr/bin/ffmpeg" " DEA.L. mp3 (encoders: libmp3lame ) DEA.L. opus (encoders: libopus )"
    rfl rfl

/-- C7: for every environment and every initial state of the `transcode`
variables, running `ffmpegSetup` a second time leaves the state the first run
produced. -/
theorem ffmpegSetup_idempotent (env : core.ProbeEnv) (s : transcode.State) :
    core.ffmpegSetup env (core.ffmpegSetup env s) = core.ffmpegSetup env s := by
  cases hp : env.LookPath "ffmpeg" with
  | error e =>
    simp [core.ffmpegSetup, core.ffmpegSetupLog, hp]
  | ok path =>
    cases ho : env.CommandOutput path ["-loglevel", "quiet", "-codecs"] with
    | error e =>
      simp [core.ffmpegSetup, core.ffmpegSetupLog, hp, ho]
    | ok O =>
      rw [ffmpegSetup_found env _ path O hp ho]
      rw [ffmpegSetup_found env s path O hp ho]
      have h := probe_loop_idempotent O env.codecs.FFmpegMP3Codec env.codecs.FFmpegOGGCodec
        env.codecs.FFmpegOPUSCodec ⟨true, path, s.CodecSet⟩
        ["transcode: found ffmpeg: " ++ path] ["transcode: found ffmpeg: " ++ path]
      have he := probe_loop_enabled O env.codecs.FFmpegMP3Codec env.codecs.FFmpegOGGCodec
        env.codecs.FFmpegOPUSCodec ⟨true, path, s.CodecSet⟩
        ["transcode: found ffmpeg: " ++ path]
      simp only at he
      have hstart : ∀ t : transcode.State, t.Enabled = true → t.FFmpegPath = path →
          ({ Enabled := true, FFmpegPath := path, CodecSet := t.CodecSet } :
            transcode.State) = t := by
        intro t h1 h2
        cases t
        simp_all
      rw [hstart _ he.1 he.2]
      exact h

/-! ## Theorems on `GetStream` -/

/-- On a request that passes the pre-stream checks, `GetStream` sets the header
and runs lines 73-98. -/
theorem GetStream_of_Reaches (env : api.Env) (r : api.Request) (song : data.Song)
    (stream : Nat) (h : api.Reaches env r song stream) :
    api.GetStream env r =
      api.Action.setHeader "Accept-Ranges" "bytes" :: api.serveStream env r song stream := by
  obtain ⟨hv, pID, id, hid, ha, hl, ho⟩ := h
  have hc : api.checkID env r = api.serveStream env r song stream := by
    simp [api.checkID, api.loadSong, hid, ha, hl, ho]
  unfold api.GetStream
  unfold api.versionSupported at hv
  split
  · rename_i version hver
    rw [hver] at hv
    simp only at hv
    rw [if_pos hv, hc]
  · rw [hc]

/-- The sample request reaches `HTTPStream` with song 42. -/
theorem request42_Reaches (result : Option GoError) :
    api.Reaches (sample.apiEnv result) sample.request42 sample.song42 3 :=
  ⟨rfl, "42", 42, rfl, rfl, rfl, rfl⟩

/-- C1: on a storage error returned by `HTTPStream` (neither a client reset nor
`ErrInvalidRange`), `GetStream` logs the error and returns without calling
`ren.JSON`: no status 500 and no error body are written. -/
theorem GetStream_unclassified_error_no_response :
    api.GetStream (sample.apiEnv (some sample.ioError)) sample.request42 =
      [api.Action.setHeader "Accept-Ranges" "bytes",
       api.Action.log "stream: starting: [#00042] Band - Song [MP3 320kbps]",
       api.Action.httpStream sample.song42 "" 1000 3,
       api.Action.log "stream: error: read /music/a.mp3: input/output error"] ∧
    api.jsonResponse (api.GetStream (sample.apiEnv (some sample.ioError)) sample.request42)
      = none := by
  decide

/-- Every error of `HTTPStream` that is neither a client reset nor
`ErrInvalidRange` is logged and answered with no response at all. -/
theorem GetStream_unclassified_error (env : api.Env) (r : api.Request) (song : data.Song)
    (stream : Nat) (err : GoError) (h : api.Reaches env r song stream)
    (hs : env.HTTPStream song "" song.FileSize stream r = some err)
    (hreset : api.isClientReset err = false) (hrange : err ≠ env.ErrInvalidRange) :
    api.jsonResponse (api.GetStream env r) = none ∧
    api.logLines (api.GetStream env r) =
      ["stream: starting: " ++ api.opStr song, "stream: error: " ++ err.msg] := by
  rw [GetStream_of_Reaches env r song stream h]
  simp [api.serveStream, hs, hreset, hrange, api.jsonResponse, api.logLines]

/-- The rows of the decision table after the version row, against lines 36-98. -/
theorem checkID_table (env : api.Env) (r : api.Request) :
    (∀ status, api.preStreamStatus.preStreamAfterVersion env r = some status →
      (∃ body, api.jsonResponse (api.checkID env r) = some (status, body) ∧
        (body = api.Body.serverErr ∨ ∃ msg, body = api.Body.errRes status msg)) ∧
      api.invokedHTTPStream (api.checkID env r) = false) ∧
    (api.preStreamStatus.preStreamAfterVersion env r = none →
      api.invokedHTTPStream (api.checkID env r) = true) := by
  unfold api.preStreamStatus.preStreamAfterVersion api.checkID
  cases hid : r.vars.lookup "id" with
  | none => simp [api.jsonResponse, api.invokedHTTPStream]
  | some pID =>
    cases ha : api.Atoi pID with
    | none => simp [ha, api.jsonResponse, api.invokedHTTPStream]
    | some id =>
      cases hl : env.LoadSong { data.Song.zero with ID := id } with
      | error err =>
        by_cases he : err = api.sqlErrNoRows
        · simp [ha, hl, api.loadSong, he, api.jsonResponse, api.invokedHTTPStream]
        · simp [ha, hl, api.loadSong, he, api.jsonResponse, api.invokedHTTPStream]
      | ok song =>
        cases ho : env.Open song.FileName with
        | error err => simp [ha, hl, ho, api.loadSong, api.jsonResponse, api.invokedHTTPStream]
        | ok stream =>
          simp [ha, hl, ho, api.loadSong, api.serveStream, api.invokedHTTPStream]

/-- C3: `GetStream` follows the pre-stream decision table (unsupported version 400,
missing or non-integer id 400, `sql.ErrNoRows` 404, other load failure or open
failure 500): whenever the table gives a status, the handler calls `ren.JSON` with
that status and a JSON error body and never invokes `HTTPStream`; when the table
gives none, `HTTPStream` is invoked. -/
theorem GetStream_preStream (env : api.Env) (r : api.Request) :
    (∀ status, api.preStreamStatus env r = some status →
      (∃ body, api.jsonResponse (api.GetStream env r) = some (status, body) ∧
        (body = api.Body.serverErr ∨ ∃ msg, body = api.Body.errRes status msg)) ∧
      api.invokedHTTPStream (api.GetStream env r) = false) ∧
    (api.preStreamStatus env r = none →
      api.invokedHTTPStream (api.GetStream env r) = true) := by
  have key := checkID_table env r
  unfold api.preStreamStatus api.GetStream
  cases hver : r.vars.lookup "version" with
  | none =>
    simpa [api.jsonResponse, api.invokedHTTPStream] using key
  | some version =>
    cases hc : env.apiVersionSet.contains version with
    | true =>
      simp only [hc, ↓reduceIte, api.jsonResponse, api.invokedHTTPStream]
      exact key
    | false =>
      simp only [hc, Bool.false_eq_true, ↓reduceIte, api.jsonResponse, api.invokedHTTPStream]
      simp

/-- C3 at a concrete request: an unsupported version is answered with 400. -/
theorem GetStream_preStream_witness :
    (∃ body, api.jsonResponse (api.GetStream (sample.apiEnv none) sample.requestBadVersion)
        = some (400, body) ∧
      (body = api.Body.serverErr ∨ ∃ msg, body = api.Body.errRes 400 msg)) ∧
    api.invokedHTTPStream (api.GetStream (sample.apiEnv none) sample.requestBadVersion)
      = false :=
  (GetStream_preStream (sample.apiEnv none) sample.requestBadVersion).1 400 (by decide)

/-- C4: when `HTTPStream` returns `ErrInvalidRange` and its text is not a
client-reset text, `GetStream` answers with status 416 and an error body of code
416, and logs nothing after the starting line. -/
theorem GetStream_invalid_range (env : api.Env) (r : api.Request) (song : data.Song)
    (stream : Nat) (h : api.Reaches env r song stream)
    (hs : env.HTTPStream song "" song.FileSize stream r = some env.ErrInvalidRange)
    (hreset : stringsContains env.ErrInvalidRange.msg "connection reset by peer" = false ∧
      stringsContains env.ErrInvalidRange.msg "broken pipe" = false) :
    api.GetStream env r =
      [api.Action.setHeader "Accept-Ranges" "bytes",
       api.Action.log ("stream: starting: " ++ api.opStr song),
       api.Action.httpStream song "" song.FileSize stream,
       api.Action.json 416 (api.Body.errRes 416 "invalid HTTP Range header boundaries")] ∧
    api.jsonResponse (api.GetStream env r) =
      some (416, api.Body.errRes 416 "invalid HTTP Range header boundaries") ∧
    api.logLines (api.GetStream env r) = ["stream: starting: " ++ api.opStr song] := by
  rw [GetStream_of_Reaches env r song stream h]
  simp [api.serveStream, hs, api.isClientReset, hreset.1, hreset.2, api.jsonResponse,
    api.logLines]

/-- C4 at the sample request with a range past the end of song 42. -/
theorem GetStream_invalid_range_witness :
    api.GetStream (sample.apiEnv (some sample.errInvalidRange)) sample.request42 =
      [api.Action.setHeader "Accept-Ranges" "bytes",
       api.Action.log ("stream: starting: " ++ api.opStr sample.song42),
       api.Action.httpStream sample.song42 "" sample.song42.FileSize 3,
       api.Action.json 416 (api.Body.errRes 416 "invalid HTTP Range header boundaries")] ∧
    api.jsonResponse
        (api.GetStream (sample.apiEnv (some sample.errInvalidRange)) sample.request42) =
      some (416, api.Body.errRes 416 "invalid HTTP Range header boundaries") ∧
    api.logLines
        (api.GetStream (sample.apiEnv (some sample.errInvalidRange)) sample.request42) =
      ["stream: starting: " ++ api.opStr sample.song42] :=
  GetStream_invalid_range (sample.apiEnv (some sample.errInvalidRange)) sample.request42
    sample.song42 3 (request42_Reaches _) (by decide) (by decide)

/-- C5: when the text of the error `HTTPStream` returns contains "connection reset
by peer" or "broken pipe", `GetStream` does nothing after the call: the whole run
is the header, the starting line and the call, with no `ren.JSON` and no further
log line; this holds for every such error, `ErrInvalidRange` included. -/
theorem GetStream_client_reset (env : api.Env) (r : api.Request) (song : data.Song)
    (stream : Nat) (err : GoError) (h : api.Reaches env r song stream)
    (hs : env.HTTPStream song "" song.FileSize stream r = some err)
    (hreset : stringsContains err.msg "connection reset by peer" = true ∨
      stringsContains err.msg "broken pipe" = true) :
    api.GetStream env r =
      [api.Action.setHeader "Accept-Ranges" "bytes",
       api.Action.log ("stream: starting: " ++ api.opStr song),
       api.Action.httpStream song "" song.FileSize stream] ∧
    api.jsonResponse (api.GetStream env r) = none ∧
    api.logLines (api.GetStream env r) = ["stream: starting: " ++ api.opStr song] := by
  have hb : api.isClientReset err = true := by
    rcases hreset with h1 | h1 <;> simp [api.isClientReset, h1]
  rw [GetStream_of_Reaches env r song stream h]
  simp [api.serveStream, hs, hb, api.jsonResponse, api.logLines]

/-- C5 at the sample request with a broken pipe. -/
theorem GetStream_client_reset_witness :
    api.GetStream (sample.apiEnv (some sample.resetError)) sample.request42 =
      [api.Action.setHeader "Accept-Ranges" "bytes",
       api.Action.log ("stream: starting: " ++ api.opStr sample.song42),
       api.Action.httpStream sample.song42 "" sample.song42.FileSize 3] ∧
    api.jsonResponse (api.GetStream (sample.apiEnv (some sample.resetError)) sample.request42)
      = none ∧
    api.logLines (api.GetStream (sample.apiEnv (some sample.resetError)) sample.request42)
      = ["stream: starting: " ++ api.opStr sample.song42] :=
  GetStream_client_reset (sample.apiEnv (some sample.resetError)) sample.request42
    sample.song42 3 sample.resetError (request42_Reaches _) (by decide) (Or.inr (by decide))

/-- No action of lines 73-98 writes a response header. -/
theorem serveStream_no_setHeader (env : api.Env) (r : api.Request) (song : data.Song)
    (stream : Nat) : ∀ a ∈ api.serveStream env r song stream, a.isSetHeader = false := by
  unfold api.serveStream
  cases hs : env.HTTPStream song "" song.FileSize stream r with
  | none => simp [api.Action.isSetHeader]
  | some err =>
    by_cases h1 : api.isClientReset err = true
    · simp [h1, api.Action.isSetHeader]
    · by_cases h2 : err = env.ErrInvalidRange
      · simp [h1, h2, api.Action.isSetHeader]
      · simp [h1, h2, api.Action.isSetHeader]

/-- No action of lines 36-98 writes a response header. -/
theorem checkID_no_setHeader (env : api.Env) (r : api.Request) :
    ∀ a ∈ api.checkID env r, a.isSetHeader = false := by
  unfold api.checkID
  cases hid : r.vars.lookup "id" with
  | none => simp [api.Action.isSetHeader]
  | some pID =>
    cases ha : api.Atoi pID with
    | none => simp [ha, api.Action.isSetHeader]
    | some id =>
      cases hl : env.LoadSong { data.Song.zero with ID := id } with
      | error err =>
        by_cases he : err = api.sqlErrNoRows
        · simp [ha, hl, api.loadSong, he, api.Action.isSetHeader]
        · simp [ha, hl, api.loadSong, he, api.Action.isSetHeader]
      | ok song =>
        cases ho : env.Open song.FileName with
        | error err => simp [ha, hl, ho, api.loadSong, api.Action.isSetHeader]
        | ok stream =>
          simpa [ha, hl, ho, api.loadSong] using serveStream_no_setHeader env r song stream

/-- C9: for every request and every result of the database, the file system and
`HTTPStream`, the first thing `GetStream` does is set `Accept-Ranges: bytes`, and
nothing it does afterwards writes a header: the header is in place on every exit
path, before any response is written and before `HTTPStream` is called, whatever
the request headers are. -/
theorem GetStream_accept_ranges (env : api.Env) (r : api.Request) :
    (∃ rest, api.GetStream env r = api.Action.setHeader "Accept-Ranges" "bytes" :: rest ∧
      ∀ a ∈ rest, a.isSetHeader = false) ∧
    api.responseHeader (api.GetStream env r) = [("Accept-Ranges", "bytes")] := by
  have hnil : ∀ l : List api.Action, (∀ a ∈ l, a.isSetHeader = false) →
      api.responseHeader l = [] := by
    intro l
    induction l with
    | nil => intro _; rfl
    | cons a t ih =>
      intro h
      have ha := h a (List.mem_cons_self _ _)
      have ht := ih (fun b hb => h b (List.mem_cons_of_mem _ hb))
      cases a <;> simp_all [api.responseHeader, api.Action.isSetHeader]
  have hrest : ∃ rest, api.GetStream env r =
      api.Action.setHeader "Accept-Ranges" "bytes" :: rest ∧
      ∀ a ∈ rest, a.isSetHeader = false := by
    unfold api.GetStream
    refine ⟨_, rfl, ?_⟩
    split
    · split
      · exact checkID_no_setHeader env r
      · simp [api.Action.isSetHeader]
    · exact checkID_no_setHeader env r
  refine ⟨hrest, ?_⟩
  obtain ⟨rest, hg, hn⟩ := hrest
  rw [hg]
  simp [api.responseHeader, hnil rest hn]

/-! ## Theorems on the shutdown sequence of `main` -/

theorem run_append_single (s : cmd.Proc) (evs : List cmd.Event) (e : cmd.Event) :
    cmd.run s (evs ++ [e]) = (cmd.run s evs).bind (fun t => cmd.step t e) := by
  induction evs generalizing s with
  | nil =>
    simp only [List.nil_append, cmd.run, Option.bind]
    cases cmd.step s e <;> rfl
  | cons a t ih =>
    simp only [List.cons_append, cmd.run]
    cases cmd.step s a with
    | none => rfl
    | some s' => exact ih s'

theorem shutdownInv_step (evs : List cmd.Event) (s t : cmd.Proc) (e : cmd.Event)
    (hinv : cmd.shutdownInv evs s) (hstep : cmd.step s e = some t) :
    cmd.shutdownInv (evs ++ [e]) t := by
  obtain ⟨h1, h2, h3, h4, h5⟩ := hinv
  unfold cmd.step at hstep
  cases hex : s.exited with
  | some k => simp [hex] at hstep
  | none =>
    simp only [hex, Option.isSome_none, Bool.false_eq_true, ↓reduceIte] at hstep
    cases e with
    | notify sig =>
      simp only at hstep
      split at hstep <;>
        (simp only [Option.some.injEq] at hstep
         subst hstep
         refine ⟨?_, ?_, ?_, ?_, ?_⟩ <;> simp_all)
    | testStep =>
      simp only at hstep
      split at hstep <;>
        first
        | (simp only [Option.some.injEq] at hstep
           subst hstep
           refine ⟨?_, ?_, ?_, ?_, ?_⟩ <;> simp_all)
        | simp at hstep
    | mainStep =>
      simp only at hstep
      split at hstep <;>
        first
        | (simp only [Option.some.injEq] at hstep
           subst hstep
           refine ⟨?_, ?_, ?_, ?_, ?_⟩ <;> simp_all)
        | simp at hstep
    | forceStep =>
      simp only at hstep
      split at hstep <;>
        first
        | (simp only [Option.some.injEq] at hstep
           subst hstep
           refine ⟨?_, ?_, ?_, ?_, ?_⟩ <;> simp_all)
        | simp at hstep
    | managerRecvKill =>
      simp only at hstep
      split at hstep <;>
        first
        | (simp only [Option.some.injEq] at hstep
           subst hstep
           refine ⟨?_, ?_, ?_, ?_, ?_⟩ <;> simp_all)
        | simp at hstep
    | managerSendExit code =>
      simp only at hstep
      split at hstep <;>
        first
        | (simp only [Option.some.injEq] at hstep
           subst hstep
           refine ⟨?_, ?_, ?_, ?_, ?_⟩ <;> simp_all)
        | simp at hstep

theorem shutdownInv_run (testFlag : Bool) (evs : List cmd.Event) (s : cmd.Proc)
    (h : cmd.run (cmd.start testFlag) evs = some s) : cmd.shutdownInv evs s := by
  induction evs using List.reverseRecOn generalizing s with
  | nil =>
    simp only [cmd.run, Option.some.injEq] at h
    subst h
    cases testFlag <;> simp [cmd.shutdownInv, cmd.start]
  | append_singleton es e ih =>
    rw [run_append_single] at h
    cases hr : cmd.run (cmd.start testFlag) es with
    | none => simp [hr] at h
    | some t =>
      simp only [hr, Option.bind] at h
      exact shutdownInv_step es t s e (ih t hr) h

/-- C8, as stated, fails: on this schedule the stop request is forwarded, the
force-halt goroutine receives the second signal and logs the forced halt while
`main` still waits on `exitChan` (no exit code received), and the process then
exits through `main` with the code 0 the manager sent. -/
theorem main_second_signal_graceful_exit :
    cmd.run (cmd.start false) sample.secondSignalLogged
      = some sample.secondSignalLoggedState ∧
    sample.secondSignalLoggedState.pc = cmd.PC.awaitExit ∧
    sample.secondSignalLoggedState.force = cmd.ForcePC.callExit ∧
    sample.secondSignalLoggedState.exited = none ∧
    cmd.run sample.secondSignalLoggedState sample.gracefulFirst
      = some sample.gracefulFirstState ∧
    sample.gracefulFirstState.exited = some 0 := by
  decide

/-- C8, amended: from every state in which the process runs, the force-halt
goroutine waits on `sigChan` and a signal is buffered, the three statements of
that goroutine (receive, log, `os.Exit(1)`), run with nothing in between, end the
process with status 1, whatever the main goroutine and the manager are doing; and
on every schedule from the start of `main`, an exit is either `os.Exit(1)` by the
force-halt goroutine, after the manager took the stop request and the forced halt
was logged, or `os.Exit(code)` by `main` with exactly the code the manager sent on
the exit channel, after the graceful line was logged. -/
theorem main_shutdown :
    (∀ (s : cmd.Proc) (sig : cmd.Signal), s.exited = none →
      s.force = cmd.ForcePC.awaitSignal → s.sigChan = some sig →
      cmd.run s [cmd.Event.forceStep, cmd.Event.forceStep, cmd.Event.forceStep] =
        some { s with force := cmd.ForcePC.callExit, sigChan := none, exited := some 1,
                      log := s.log ++ [cmd.LogLine.forceHalting sig] }) ∧
    (∀ (testFlag : Bool) (evs : List cmd.Event) (s : cmd.Proc) (k : Int),
      cmd.run (cmd.start testFlag) evs = some s → s.exited = some k →
      (k = 1 ∧ s.force = cmd.ForcePC.callExit ∧
        (∃ sig, cmd.LogLine.forceHalting sig ∈ s.log) ∧
        cmd.Event.managerRecvKill ∈ evs) ∨
      (s.pc = cmd.PC.callExit k ∧ cmd.Event.managerSendExit k ∈ evs ∧
        cmd.LogLine.gracefulComplete ∈ s.log)) := by
  constructor
  · intro s sig hex hf hb
    simp [cmd.run, cmd.step, hex, hf, hb]
  · intro testFlag evs s k hrun hk
    obtain ⟨h1, h2, h3, h4, h5⟩ := shutdownInv_run testFlag evs s hrun
    rcases h5 k hk with ⟨hk1, hf⟩ | hpc
    · refine Or.inl ⟨hk1, hf, h2 hf, h1 (Or.inr ?_)⟩
      rw [hf]
      decide
    · exact Or.inr ⟨hpc, h3 k (Or.inr hpc), h4 k hpc⟩

/-- C8, amended, on concrete states: with a second signal buffered the force-halt
goroutine ends the process with status 1, and the schedule on which `main` exits
first ends with the code 0 the manager sent. -/
theorem main_shutdown_witness :
    cmd.run sample.secondSignalPending
        [cmd.Event.forceStep, cmd.Event.forceStep, cmd.Event.forceStep]
      = some sample.forcedState ∧
    (((0 : Int) = 1 ∧ sample.gracefulFirstState.force = cmd.ForcePC.callExit ∧
        (∃ sig, cmd.LogLine.forceHalting sig ∈ sample.gracefulFirstState.log) ∧
        cmd.Event.managerRecvKill ∈ sample.secondSignalLogged ++ sample.gracefulFirst) ∨
      (sample.gracefulFirstState.pc = cmd.PC.callExit 0 ∧
        cmd.Event.managerSendExit 0 ∈ sample.secondSignalLogged ++ sample.gracefulFirst ∧
        cmd.LogLine.gracefulComplete ∈ sample.gracefulFirstState.log)) :=
  ⟨main_shutdown.1 sample.secondSignalPending cmd.Signal.sigterm rfl rfl rfl,
   main_shutdown.2 false (sample.secondSignalLogged ++ sample.gracefulFirst)
     sample.gracefulFirstState 0 (by decide) rfl⟩


end Wavepipe
